import Mathlib

/-!
Verification of the trex surrogate-model core
(`src/trex/models/linear_model.py` and `src/trex/models/liblinear_util.py`).

Real numbers are modelled as `ℚ`; dense 1-D numpy arrays as `List ℚ`;
dense 2-D arrays (feature matrices, one row per instance) as
`List (List ℚ)`.  A kernel callable `kernel_func(X1, X2)` returning a
similarity matrix is modelled by its scalar restriction
`List ℚ → List ℚ → ℚ` applied to one row of each argument; the numpy
matrix versions in the source are elementwise maps of this scalar
function.  Python `assert` failures and raised exceptions are modelled
as `Except.error ()`.
-/

/-- Scalar linear kernel (`sklearn.metrics.pairwise.linear_kernel` on one
row of each side): the dot product of the two rows. -/
def dot (x y : List ℚ) : ℚ :=
  (List.zipWith (fun a b => a * b) x y).sum

/-- Fitted state of `BinarySVM` (linear_model.py, lines 175-193):
`kernel_func`, the retained training matrix `X_train_`, the dual
coefficients `coef_ = model_.dual_coef_[0]`, the support indices
`coef_indices_ = model_.support_`, the bias `intercept_ =
model_.intercept_[0]`, and the blocking parameter `pred_size`. -/
structure BinarySVM where
  kernel_func : List ℚ → List ℚ → ℚ
  X_train_ : List (List ℚ)
  coef_ : List ℚ
  coef_indices_ : List ℕ
  intercept_ : ℚ
  pred_size : ℕ

/-- A dummy estimator, used only as the default for `List.getD`. -/
def dummySVM : BinarySVM :=
  { kernel_func := fun _ _ => 0, X_train_ := [], coef_ := [],
    coef_indices_ := [], intercept_ := 0, pred_size := 1 }

namespace BinarySVM

/-- The row `(x_sim * self.coef_)[0]` computed by `BinarySVM.explain`
(linear_model.py line 230-231): entry `j` is
`kernel_func(x, X_train_[coef_indices_[j]]) * coef_[j]`. -/
def impact (m : BinarySVM) (x : List ℚ) : List ℚ :=
  List.zipWith (fun i c => m.kernel_func x (m.X_train_.getD i []) * c)
    m.coef_indices_ m.coef_

/-- The per-row value of one block of `BinarySVM.decision_function`
(linear_model.py line 203-204): `np.sum(X_sim * self.coef_, axis=1) +
self.intercept_` restricted to the row for `x`. -/
def decisionRow (m : BinarySVM) (x : List ℚ) : ℚ :=
  (m.impact x).sum + m.intercept_

end BinarySVM

/-- Successive blocks `X[i : i + p]` of the Python loop
`for i in range(0, len(X), pred_size)`.  Python raises for
`pred_size == 0`; the model is only used (and only claimed) for
`1 ≤ p`, where each block is `p` consecutive rows in input order. -/
def chunk (p : ℕ) : List α → List (List α)
  | [] => []
  | x :: xs => (x :: xs.take (p - 1)) :: chunk p (xs.drop (p - 1))
termination_by l => l.length
decreasing_by
  simp only [List.length_drop, List.length_cons]
  omega

/-- Concatenating a function mapped over the blocks of a list recovers the
function mapped over the list: row-blocking preserves order and values. -/
theorem chunk_join_map (f : α → β) (p : ℕ) :
    ∀ (X : List α), ((chunk p X).map (List.map f)).flatten = X.map f := by
  have H : ∀ (n : ℕ) (X : List α), X.length = n →
      ((chunk p X).map (List.map f)).flatten = X.map f := by
    intro n
    induction n using Nat.strong_induction_on with
    | _ n ih =>
      intro X hn
      cases X with
      | nil => simp [chunk]
      | cons x xs =>
        rw [chunk]
        have hlen : (xs.drop (p - 1)).length < n := by
          simp only [List.length_cons] at hn
          simp only [List.length_drop]
          omega
        simp only [List.map_cons, List.flatten_cons,
          ih _ hlen _ rfl]
        rw [List.cons_append, ← List.map_append, List.take_append_drop]
  exact fun X => H X.length X rfl

namespace BinarySVM

/-- `BinarySVM.decision_function` (linear_model.py lines 195-206): for
each block of `pred_size` rows, the similarity matrix against
`X_train_[coef_indices_]` times `coef_`, summed per row, plus
`intercept_`; blocks are concatenated with `np.concatenate`. -/
def decision_function (m : BinarySVM) (X : List (List ℚ)) : List ℚ :=
  ((chunk m.pred_size X).map (fun B => B.map (fun x => m.decisionRow x))).flatten

/-- `BinarySVM.predict` (lines 208-213): `np.where(decision >= 0, 1, 0)`. -/
def predict (m : BinarySVM) (X : List (List ℚ)) : List ℚ :=
  (m.decision_function X).map (fun d => if 0 ≤ d then 1 else 0)

/-- `BinarySVM.similarity` (SVM.similarity, lines 70-72, with
`train_indices=None`): the kernel row of `x` against all of `X_train_`. -/
def similarity (m : BinarySVM) (x : List ℚ) : List ℚ :=
  m.X_train_.map (fun r => m.kernel_func x r)

end BinarySVM

/-- Dense length-`n` row of a 1-row CSR matrix
`sps.csr_matrix((data, indices, indptr), shape=(1, n))`: position `i`
holds the sum of the data entries whose column index equals `i`
(scipy sums duplicate indices; with distinct indices this is the single
stored entry, and `0` at unstored columns). -/
def csrRowToDense (n : ℕ) (indices : List ℕ) (data : List ℚ) : List ℚ :=
  (List.range n).map
    (fun i => (((indices.zip data).filter (fun p => p.1 == i)).map
      (fun p => p.2)).sum)

namespace BinarySVM

/-- `BinarySVM.get_weight` (lines 215-222): CSR row with data `coef_` at
columns `coef_indices_`, shape `(1, len(X_train_))`, as a dense row. -/
def get_weight (m : BinarySVM) : List ℚ :=
  csrRowToDense m.X_train_.length m.coef_indices_ m.coef_

/-- `BinarySVM.explain` (lines 224-233): CSR row with data
`(kernel_func(x, X_train_[coef_indices_]) * coef_)[0]` at columns
`coef_indices_`, shape `(1, len(X_train_))`, as a dense row. -/
def explain (m : BinarySVM) (x : List ℚ) : List ℚ :=
  csrRowToDense m.X_train_.length m.coef_indices_ (m.impact x)

end BinarySVM

/-- Fitted state of `BinaryKernelLogisticRegression` (linear_model.py,
lines 307-397): the retained training matrix `X_train_` and the dense
dual coefficients `coef_` parsed from the external solver's model file
(one coefficient per training instance). -/
structure BinaryKernelLogisticRegression where
  X_train_ : List (List ℚ)
  coef_ : List ℚ
  pred_size : ℕ

namespace BinaryKernelLogisticRegression

/-- `KernelLogisticRegression.similarity` (lines 271-273, with
`train_indices=None`): `linear_kernel(x, X_train_)` as one row. -/
def similarity (m : BinaryKernelLogisticRegression) (x : List ℚ) : List ℚ :=
  m.X_train_.map (fun r => dot x r)

/-- `BinaryKernelLogisticRegression.get_weight` (lines 381-385):
`coef_.copy()`. -/
def get_weight (m : BinaryKernelLogisticRegression) : List ℚ :=
  m.coef_

/-- `BinaryKernelLogisticRegression.explain` (lines 387-394):
`linear_kernel(x, X_train_) * coef_` (dense, full training-set length). -/
def explain (m : BinaryKernelLogisticRegression) (x : List ℚ) : List ℚ :=
  List.zipWith (fun s c => s * c) (m.X_train_.map (fun r => dot x r)) m.coef_

end BinaryKernelLogisticRegression

/-! Helper lemmas about `List.getD`, `List.zip` and `csrRowToDense`. -/

theorem getD_map (f : α → β) (l : List α) (i : ℕ) (d : α) (e : β)
    (h : i < l.length) : (l.map f).getD i e = f (l.getD i d) := by
  induction l generalizing i with
  | nil => simp at h
  | cons a t ih =>
    cases i with
    | zero => simp
    | succ k =>
      simp only [List.map_cons, List.getD_cons_succ]
      exact ih k (by simpa using h)

theorem getD_map_range (g : ℕ → α) (n i : ℕ) (d : α) (h : i < n) :
    ((List.range n).map g).getD i d = g i := by
  rw [getD_map g (List.range n) i 0 d (by simpa using h)]
  congr 1
  rw [List.getD_eq_getElem _ _ (by simpa using h)]
  simp

theorem getD_zipWith (f : α → β → γ) (l1 : List α) (l2 : List β) (i : ℕ)
    (d1 : α) (d2 : β) (d3 : γ) (h1 : i < l1.length) (h2 : i < l2.length) :
    (List.zipWith f l1 l2).getD i d3 = f (l1.getD i d1) (l2.getD i d2) := by
  induction l1 generalizing l2 i with
  | nil => simp at h1
  | cons a t ih =>
    cases l2 with
    | nil => simp at h2
    | cons b u =>
      cases i with
      | zero => simp
      | succ k =>
        simp only [List.zipWith_cons_cons, List.getD_cons_succ]
        exact ih u k (by simpa using h1) (by simpa using h2)

theorem sum_map_add_q (l : List ℕ) (f g : ℕ → ℚ) :
    (l.map (fun i => f i + g i)).sum = (l.map f).sum + (l.map g).sum := by
  induction l with
  | nil => simp
  | cons a t ih => simp [ih]; ring

theorem sum_ite_range (n a : ℕ) (b : ℚ) :
    ((List.range n).map (fun i => if a == i then b else 0)).sum
      = if a < n then b else 0 := by
  induction n with
  | zero => simp
  | succ k ih =>
    rw [List.range_succ, List.map_append, List.sum_append, ih]
    simp only [List.map_cons, List.map_nil, List.sum_cons, List.sum_nil,
      add_zero]
    by_cases hak : a = k
    · subst hak
      simp
    · have hbeq : (a == k) = false := by simp [hak]
      by_cases h2 : a < k
      · have h3 : a < k + 1 := by omega
        simp [hbeq, h2, h3]
      · have h3 : ¬ a < k + 1 := by omega
        simp [hbeq, h2, h3]

theorem csrRowToDense_sum (n : ℕ) :
    ∀ (ind : List ℕ) (data : List ℚ), (∀ i ∈ ind, i < n) →
      (csrRowToDense n ind data).sum
        = ((ind.zip data).map (fun p => p.2)).sum := by
  intro ind
  induction ind with
  | nil => intro data _; simp [csrRowToDense]
  | cons a tl ih =>
    intro data h
    cases data with
    | nil => simp [csrRowToDense]
    | cons c dt =>
      have ha : a < n := h a (by simp)
      have htl : ∀ i ∈ tl, i < n := fun i hi => h i (by simp [hi])
      unfold csrRowToDense
      have hfun : ∀ i ∈ List.range n,
          ((((a :: tl).zip (c :: dt)).filter (fun p => p.1 == i)).map
            (fun p => p.2)).sum
          = (if a == i then c else 0)
            + (((tl.zip dt).filter (fun p => p.1 == i)).map
                (fun p => p.2)).sum := by
        intro i _
        rw [List.zip_cons_cons, List.filter_cons]
        by_cases hai : (a == i) = true
        · simp [hai]
        · simp [hai]
      rw [List.map_congr_left hfun, sum_map_add_q, sum_ite_range, if_pos ha]
      have := ih dt htl
      unfold csrRowToDense at this
      rw [this]
      simp

theorem filter_zip_not_mem (i : ℕ) :
    ∀ (ind : List ℕ) (l : List ℚ), i ∉ ind →
      (ind.zip l).filter (fun p => p.1 == i) = [] := by
  intro ind
  induction ind with
  | nil => intro l _; simp
  | cons a tl ih =>
    intro l hmem
    cases l with
    | nil => simp
    | cons c ct =>
      have ha : (a == i) = false := by
        simp only [List.mem_cons, not_or] at hmem
        simp
        exact fun h => hmem.1 h.symm
      rw [List.zip_cons_cons, List.filter_cons]
      simp only [ha, Bool.false_eq_true, if_false]
      exact ih ct (by simp only [List.mem_cons, not_or] at hmem; exact hmem.2)

theorem filter_zip_zipWith_mul (g : ℕ → ℚ) (i : ℕ) :
    ∀ (ind : List ℕ) (data : List ℚ), ind.Nodup →
      (((ind.zip (List.zipWith (fun j c => g j * c) ind data)).filter
          (fun p => p.1 == i)).map (fun p => p.2)).sum
        = g i * (((ind.zip data).filter (fun p => p.1 == i)).map
            (fun p => p.2)).sum := by
  intro ind
  induction ind with
  | nil => intro data _; simp
  | cons a tl ih =>
    intro data hnd
    cases data with
    | nil => simp
    | cons c dt =>
      rw [List.zipWith_cons_cons, List.zip_cons_cons, List.zip_cons_cons,
        List.filter_cons, List.filter_cons]
      by_cases hai : (a == i) = true
      · have haeq : a = i := by simpa using hai
        subst haeq
        have hnotin : a ∉ tl := (List.nodup_cons.mp hnd).1
        rw [filter_zip_not_mem a tl _ hnotin, filter_zip_not_mem a tl dt hnotin]
        simp [hai]
      · simp only [hai, Bool.false_eq_true, if_false]
        exact ih dt (List.nodup_cons.mp hnd).2

theorem csrRowToDense_getD (n : ℕ) (ind : List ℕ) (data : List ℚ) (i : ℕ)
    (hi : i < n) :
    (csrRowToDense n ind data).getD i 0
      = (((ind.zip data).filter (fun p => p.1 == i)).map (fun p => p.2)).sum := by
  unfold csrRowToDense
  exact getD_map_range _ n i 0 hi

theorem map_snd_zip_of_le :
    ∀ (l1 : List ℕ) (l2 : List ℚ), l2.length ≤ l1.length →
      (l1.zip l2).map (fun p => p.2) = l2 := by
  intro l1
  induction l1 with
  | nil =>
    intro l2 h
    cases l2 with
    | nil => simp
    | cons b u => simp at h
  | cons a t ih =>
    intro l2 h
    cases l2 with
    | nil => simp
    | cons b u =>
      simp only [List.zip_cons_cons, List.map_cons]
      rw [ih u (by simpa using h)]

/-- Concrete fitted binary SVM used by the witnesses: linear kernel,
three training instances of which two are support vectors. -/
def svmExample : BinarySVM :=
  { kernel_func := dot, X_train_ := [[1], [2], [3]], coef_ := [1/2, -1],
    coef_indices_ := [0, 2], intercept_ := 3, pred_size := 2 }

/-- Concrete fitted binary kernel logistic regression used by the
witnesses: two training instances, dense coefficients. -/
def klrExample : BinaryKernelLogisticRegression :=
  { X_train_ := [[1], [2]], coef_ := [1/3, -2], pred_size := 1000 }

/-- Claim C1: for a fitted binary SVM and a single query `x`, the
decision value equals the sum of the per-training-instance explanation
plus the intercept: `decision_function(x) = explain(x).sum() +
intercept_`, both computed from the dual coefficients `coef_` at support
indices `coef_indices_`. -/
theorem svm_decision_eq_explain_sum_add_intercept (m : BinarySVM)
    (x : List ℚ) (hp : 1 ≤ m.pred_size)
    (hb : ∀ i ∈ m.coef_indices_, i < m.X_train_.length) :
    m.decision_function [x] = [(m.explain x).sum + m.intercept_] := by
  have h1 : m.decision_function [x] = [m.decisionRow x] := by
    unfold BinarySVM.decision_function
    have := chunk_join_map (fun x => m.decisionRow x) m.pred_size [x]
    simpa using this
  have h2 : (m.explain x).sum = (m.impact x).sum := by
    unfold BinarySVM.explain
    rw [csrRowToDense_sum _ _ _ hb, map_snd_zip_of_le]
    unfold BinarySVM.impact
    rw [List.length_zipWith]
    exact Nat.min_le_left _ _
  rw [h1, h2]
  rfl

theorem svm_decision_eq_explain_sum_add_intercept_witness :
    1 ≤ svmExample.pred_size ∧
      svmExample.decision_function [[4]] =
        [(svmExample.explain [4]).sum + svmExample.intercept_] :=
  ⟨by decide,
    svm_decision_eq_explain_sum_add_intercept svmExample [4] (by decide)
      (by decide)⟩

/-- Claim C2: for both binary backends, `explain(x)` is the elementwise
product of `similarity(x)` and `get_weight()` over the full training
index space; for the SVM backend (whose support indices are distinct and
in range) the weight is `0` at non-support indices. -/
theorem explain_eq_similarity_mul_weight :
    (∀ (m : BinarySVM) (x : List ℚ) (i : ℕ),
        m.coef_indices_.Nodup →
        (∀ j ∈ m.coef_indices_, j < m.X_train_.length) →
        i < m.X_train_.length →
        (m.explain x).getD i 0
          = (m.similarity x).getD i 0 * m.get_weight.getD i 0)
    ∧ (∀ (m : BinaryKernelLogisticRegression) (x : List ℚ) (i : ℕ),
        m.coef_.length = m.X_train_.length →
        i < m.X_train_.length →
        (m.explain x).getD i 0
          = (m.similarity x).getD i 0 * m.get_weight.getD i 0) := by
  constructor
  · intro m x i hnd hb hi
    unfold BinarySVM.explain BinarySVM.get_weight BinarySVM.similarity
    rw [csrRowToDense_getD _ _ _ _ hi, csrRowToDense_getD _ _ _ _ hi]
    unfold BinarySVM.impact
    rw [filter_zip_zipWith_mul
      (fun j => m.kernel_func x (m.X_train_.getD j [])) i
      m.coef_indices_ m.coef_ hnd]
    congr 1
    rw [getD_map (fun r => m.kernel_func x r) m.X_train_ i [] 0 hi]
  · intro m x i hlen hi
    unfold BinaryKernelLogisticRegression.explain
      BinaryKernelLogisticRegression.get_weight
      BinaryKernelLogisticRegression.similarity
    rw [getD_zipWith (fun s c => s * c) _ _ i 0 0 0
      (by simpa using hi) (by rw [hlen]; exact hi)]

theorem explain_eq_similarity_mul_weight_witness :
    ((svmExample.explain [4]).getD 0 0
        = (svmExample.similarity [4]).getD 0 0
            * svmExample.get_weight.getD 0 0)
    ∧ ((klrExample.explain [4]).getD 1 0
        = (klrExample.similarity [4]).getD 1 0
            * klrExample.get_weight.getD 1 0) :=
  ⟨explain_eq_similarity_mul_weight.1 svmExample [4] 0 (by decide)
      (by decide) (by decide),
    explain_eq_similarity_mul_weight.2 klrExample [4] 1 (by decide)
      (by decide)⟩

/-- Claim C8: for every fitted binary SVM, query batch `X` and block
size `pred_size ≥ 1`, the row-blocked `decision_function` equals the
per-row decision applied to all rows in input order (equivalently, one
single block): blocking changes neither values nor order. -/
theorem svm_blocked_decision_invariance (m : BinarySVM)
    (X : List (List ℚ)) (p : ℕ) (hp : 1 ≤ p) :
    BinarySVM.decision_function { m with pred_size := p } X
      = X.map (fun x => m.decisionRow x) := by
  unfold BinarySVM.decision_function
  exact chunk_join_map (fun x => m.decisionRow x) p X

theorem svm_blocked_decision_invariance_witness :
    1 ≤ 2 ∧
      BinarySVM.decision_function { svmExample with pred_size := 2 }
          [[1], [5], [7]]
        = [[1], [5], [7]].map (fun x => svmExample.decisionRow x) :=
  ⟨by decide,
    svm_blocked_decision_invariance svmExample [[1], [5], [7]] 2 (by decide)⟩

/-- The `gamma` constructor parameter of `SVM`: the string `"scale"`,
Python `None`, or a numeric value. -/
inductive GammaSpec where
  | scale
  | unset
  | value (g : ℚ)
deriving DecidableEq

/-- `X_train_.var()`: numpy population variance over all entries of the
2-D matrix (mean of squared deviations from the global mean). -/
def npVar (X : List (List ℚ)) : ℚ :=
  let l := X.flatten
  let mu := l.sum / (l.length : ℚ)
  (l.map (fun a => (a - mu) ^ 2)).sum / (l.length : ℚ)

/-- `SVM._compute_gamma` (linear_model.py lines 127-133): `"scale"` gives
`1 / (n_features * X_train_.var())`, `None` gives `1 / n_features`, and
any other value is used verbatim. -/
def compute_gamma (gamma : GammaSpec) (n_features : ℕ)
    (X_train : List (List ℚ)) : ℚ :=
  match gamma with
  | .scale => 1 / ((n_features : ℚ) * npVar X_train)
  | .unset => 1 / (n_features : ℚ)
  | .value g => g

/-- `SVM._create_kernel_callable` (lines 110-125), restricted to the
`gamma_` attribute it stores: asserts the kernel name is one of
`rbf`, `poly`, `sigmoid`, `linear`; calls `_compute_gamma` for the three
non-linear kernels; stores the raw `gamma` parameter for `linear`. -/
def create_kernel_callable (kernel : String) (gamma : GammaSpec)
    (n_features : ℕ) (X_train : List (List ℚ)) : Except Unit GammaSpec :=
  if kernel ∈ (["rbf", "poly", "sigmoid", "linear"] : List String) then
    if kernel = "rbf" then
      .ok (.value (compute_gamma gamma n_features X_train))
    else if kernel = "poly" then
      .ok (.value (compute_gamma gamma n_features X_train))
    else if kernel = "sigmoid" then
      .ok (.value (compute_gamma gamma n_features X_train))
    else
      .ok gamma
  else
    .error ()

/-- Claim C9: at fit time, for the non-linear kernels `rbf`, `poly` and
`sigmoid`, the resolved `gamma_` is `1/(n_features * var(X_train))` for
`"scale"`, `1/n_features` for `None`, and the given value verbatim
otherwise; an unsupported kernel name is a configuration error. -/
theorem svm_gamma_resolution (kernel : String) (nf : ℕ)
    (X : List (List ℚ)) :
    (kernel ∈ (["rbf", "poly", "sigmoid"] : List String) →
      create_kernel_callable kernel .scale nf X
          = .ok (.value (1 / ((nf : ℚ) * npVar X)))
        ∧ create_kernel_callable kernel .unset nf X
            = .ok (.value (1 / (nf : ℚ)))
        ∧ ∀ g : ℚ, create_kernel_callable kernel (.value g) nf X
            = .ok (.value g))
    ∧ (kernel ∉ (["rbf", "poly", "sigmoid", "linear"] : List String) →
      ∀ gm, create_kernel_callable kernel gm nf X = .error ()) := by
  constructor
  · intro hk
    have hk3 : kernel = "rbf" ∨ kernel = "poly" ∨ kernel = "sigmoid" := by
      simpa using hk
    rcases hk3 with h | h | h <;> subst h <;>
      exact ⟨by simp [create_kernel_callable, compute_gamma],
        by simp [create_kernel_callable, compute_gamma],
        fun g => by simp [create_kernel_callable, compute_gamma]⟩
  · intro hk gm
    unfold create_kernel_callable
    rw [if_neg hk]

theorem svm_gamma_resolution_witness :
    create_kernel_callable "rbf" .scale 2 [[1, 3], [5, 7]]
        = .ok (.value (1 / ((2 : ℚ) * npVar [[1, 3], [5, 7]])))
    ∧ create_kernel_callable "tanh" .unset 2 [[1, 3], [5, 7]]
        = .error () :=
  ⟨((svm_gamma_resolution "rbf" 2 [[1, 3], [5, 7]]).1 (by decide)).1,
    (svm_gamma_resolution "tanh" 2 [[1, 3], [5, 7]]).2 (by decide) .unset⟩

/-- The module-level functions defined in
`src/trex/models/liblinear_util.py`. -/
def liblinear_util_attrs : List String :=
  ["create_data_file", "train_linear_svc", "train_lr",
   "predict_linear_svc", "predict_lr", "parse_model_file",
   "parse_linear_svc_predictions", "parse_lr_predictions"]

/-- The `liblinear_util.<name>` attributes referenced by
`BinaryKernelLogisticRegression.fit` (linear_model.py lines 348-354),
in call order. -/
def bklr_fit_called_attrs : List String :=
  ["create_data_file", "train_model", "parse_model_file", "predict",
   "parse_prediction_file"]

/-- Claim C3 (code bug): `BinaryKernelLogisticRegression.fit` references
`liblinear_util.train_model`, `liblinear_util.predict` and
`liblinear_util.parse_prediction_file`, none of which exist in
`liblinear_util.py` (which defines `train_lr`, `predict_lr` and
`parse_lr_predictions` instead), so every call to `fit` raises
`AttributeError` at the training step and never stores `coef_`. -/
theorem bklr_fit_references_missing_attrs :
    "train_model" ∈ bklr_fit_called_attrs
    ∧ "train_model" ∉ liblinear_util_attrs
    ∧ "predict" ∈ bklr_fit_called_attrs
    ∧ "predict" ∉ liblinear_util_attrs
    ∧ "parse_prediction_file" ∈ bklr_fit_called_attrs
    ∧ "parse_prediction_file" ∉ liblinear_util_attrs := by
  decide

/-- A liblinear prediction file in probability mode (`predict -b 1`),
with lines stripped of trailing newlines: the header line, then per
line the predicted label and probabilities
`<label> <proba_class1> <proba_class0>`. -/
structure PredFile where
  header : String
  rows : List (Int × ℚ × ℚ)

/-- `parse_lr_predictions` (liblinear_util.py lines 121-148): asserts the
header is `labels 1 -1` or `labels 1 0`; collects labels and
probabilities (reordered to `(proba_0, proba_1)` per row by
`np.vstack([proba_0, proba_1]).T`); with `minus_to_zeros`, remaps labels
via `np.where(pred_label == -1, 0, 1)`. -/
def parse_lr_predictions (f : PredFile) (minus_to_zeros : Bool) :
    Except Unit (List Int × List (ℚ × ℚ)) :=
  if f.header = "labels 1 -1" ∨ f.header = "labels 1 0" then
    let pred_label := f.rows.map (fun r => r.1)
    let proba := f.rows.map (fun r => (r.2.2, r.2.1))
    .ok (if minus_to_zeros then
          pred_label.map (fun l => if l = -1 then 0 else 1)
        else pred_label, proba)
  else
    .error ()

/-- `parse_linear_svc_predictions` (lines 104-118): one bare label per
line, no header validation; with `minus_to_zeros`, remaps labels via
`np.where(pred_label == -1, 0, 1)`. -/
def parse_linear_svc_predictions (labels : List Int)
    (minus_to_zeros : Bool) : List Int :=
  if minus_to_zeros then labels.map (fun l => if l = -1 then 0 else 1)
  else labels

/-- Claim C4 counterexample: on the well-formed prediction file with
header `labels 1 0` and the single predicted label `0` (the negative
class of the `{1,0}` convention), the parser returns label `1`, not `0`:
`np.where(pred_label == -1, 0, 1)` sends every label other than `-1`
(including the negative label `0`) to `1`. -/
theorem parse_lr_predictions_zero_label_counterexample :
    parse_lr_predictions
        { header := "labels 1 0", rows := [(0, 1/4, 3/4)] } true
        = .ok ([1], [(3/4, 1/4)])
    ∧ parse_lr_predictions
        { header := "labels 1 0", rows := [(0, 1/4, 3/4)] } true
        ≠ .ok ([0], [(3/4, 1/4)]) := by
  constructor
  · rfl
  · intro h
    rw [show parse_lr_predictions
        { header := "labels 1 0", rows := [(0, 1/4, 3/4)] } true
        = .ok ([1], [(3/4, 1/4)]) from rfl] at h
    simp at h

/-- Claim C4 (amended): with `minus_to_zeros` enabled and a well-formed
header, the parsers remap only the external label `-1` to `0`; every
other label — `+1`, but also the negative-class label `0` of the
`labels 1 0` convention — is returned as `1`. -/
theorem parse_predictions_remap_amended (f : PredFile)
    (hh : f.header = "labels 1 -1" ∨ f.header = "labels 1 0") :
    parse_lr_predictions f true
        = .ok (f.rows.map (fun r => if r.1 = -1 then 0 else 1),
            f.rows.map (fun r => (r.2.2, r.2.1)))
    ∧ ∀ labels : List Int,
        parse_linear_svc_predictions labels true
          = labels.map (fun l => if l = -1 then 0 else 1) := by
  constructor
  · unfold parse_lr_predictions
    rw [if_pos hh]
    simp [List.map_map, Function.comp]
  · intro labels
    rfl

theorem parse_predictions_remap_amended_witness :
    parse_lr_predictions
        { header := "labels 1 -1",
          rows := [(-1, 1/3, 2/3), (1, 9/10, 1/10)] } true
        = .ok ([0, 1], [(2/3, 1/3), (1/10, 9/10)])
    ∧ parse_linear_svc_predictions [-1, 1, 5] true = [0, 1, 1] :=
  ⟨(parse_predictions_remap_amended
      { header := "labels 1 -1",
        rows := [(-1, 1/3, 2/3), (1, 9/10, 1/10)] } (Or.inl rfl)).1,
    (parse_predictions_remap_amended
      { header := "labels 1 -1",
        rows := [(-1, 1/3, 2/3), (1, 9/10, 1/10)] } (Or.inl rfl)).2
      [-1, 1, 5]⟩

/-- One stripped line of a liblinear model file, pre-tokenised by the
leading keyword that the `line.startswith(...)` dispatch of
`parse_model_file` tests; a `raw` line is a line of whitespace-separated
numbers (a weight line or the alpha-coefficient line), which matches no
keyword and is skipped by the dispatch. -/
inductive ModelLine where
  | solver_type (s : String)
  | nr_class (n : ℕ)
  | label (l1 l2 : Int)
  | nr_feature (n : ℕ)
  | bias (b : ℚ)
  | w
  | nr_sample (n : ℕ)
  | alpha
  | raw (vals : List ℚ)
deriving DecidableEq

/-- Loop state of `parse_model_file`: the Python locals `nr_feature` and
`nr_sample` (unbound = `none`; reading them unbound is a `NameError`)
and the `alpha` variable initialised to `None`. -/
structure MState where
  nr_feature : Option ℕ
  nr_sample : Option ℕ
  alpha : Option (List ℚ)
deriving DecidableEq

/-- The initial parser state: all locals unbound, `alpha = None`. -/
def initMState : MState :=
  { nr_feature := none, nr_sample := none, alpha := none }

/-- The per-line dispatch loop of `parse_model_file` (liblinear_util.py
lines 80-99); `rest` holds the lines after the current one, which the
`w` and `alpha` branches read ahead into (`lines[i+1:i+nr_feature]` and
`lines[i+1]`). Failed `assert`s, `NameError` (unbound local),
`ValueError` (`float()` on a non-numeric line) and `IndexError`
(reading past the end) are all modelled as `.error ()`. -/
def parse_model_lines (st : MState) :
    List ModelLine → Except Unit MState
  | [] => .ok st
  | l :: rest =>
    match l with
    | .solver_type s =>
        if s = "L2R_LR_DUAL" ∨ s = "L2R_L2LOSS_SVC_DUAL" then
          parse_model_lines st rest
        else .error ()
    | .nr_class n =>
        if n = 2 then parse_model_lines st rest else .error ()
    | .label l1 l2 =>
        if l1 = 1 ∧ (l2 = 0 ∨ l2 = -1) then parse_model_lines st rest
        else .error ()
    | .nr_feature n =>
        parse_model_lines { st with nr_feature := some n } rest
    | .bias _ => parse_model_lines st rest
    | .w =>
        match st.nr_feature with
        | none => .error ()
        | some nf =>
            if (rest.take (nf - 1)).all
                (fun ln => match ln with
                  | .raw [_] => true
                  | _ => false) then
              parse_model_lines st rest
            else .error ()
    | .nr_sample n =>
        parse_model_lines { st with nr_sample := some n } rest
    | .alpha =>
        match rest with
        | .raw vs :: _ =>
            match st.nr_sample with
            | none => .error ()
            | some ns =>
                if vs.length = ns then
                  parse_model_lines { st with alpha := some vs } rest
                else .error ()
        | _ => .error ()
    | .raw _ => parse_model_lines st rest

/-- `parse_model_file` (liblinear_util.py lines 67-101): run the line
loop from the initial state and return `np.array(alpha)` — the final
`alpha` value, which is `None` when no `alpha` marker line occurred. -/
def parse_model_file (lines : List ModelLine) :
    Except Unit (Option (List ℚ)) :=
  (parse_model_lines initMState lines).map (fun st => st.alpha)

/-- When no `alpha` marker line occurs, a successful run of the line
loop leaves the `alpha` variable unchanged. -/
theorem parse_model_lines_alpha_invariant :
    ∀ (lines : List ModelLine) (st st2 : MState),
      ModelLine.alpha ∉ lines →
      parse_model_lines st lines = .ok st2 → st2.alpha = st.alpha := by
  intro lines
  induction lines with
  | nil =>
    intro st st2 _ h
    simp only [parse_model_lines, Except.ok.injEq] at h
    rw [← h]
  | cons l rest ih =>
    intro st st2 hna h
    have hrest : ModelLine.alpha ∉ rest := fun hm => hna (by simp [hm])
    cases l with
    | solver_type s =>
      simp only [parse_model_lines] at h
      split at h
      · exact ih st st2 hrest h
      · simp at h
    | nr_class n =>
      simp only [parse_model_lines] at h
      split at h
      · exact ih st st2 hrest h
      · simp at h
    | label l1 l2 =>
      simp only [parse_model_lines] at h
      split at h
      · exact ih st st2 hrest h
      · simp at h
    | nr_feature n =>
      simp only [parse_model_lines] at h
      exact ih { st with nr_feature := some n } st2 hrest h
    | bias b =>
      simp only [parse_model_lines] at h
      exact ih st st2 hrest h
    | w =>
      simp only [parse_model_lines] at h
      split at h
      · simp at h
      · split at h
        · exact ih st st2 hrest h
        · simp at h
    | nr_sample n =>
      simp only [parse_model_lines] at h
      exact ih { st with nr_sample := some n } st2 hrest h
    | alpha => exact absurd (by simp) hna
    | raw vals =>
      simp only [parse_model_lines] at h
      exact ih st st2 hrest h

/-- Claim C5 (amended): `parse_model_file` fatally rejects a wrong
solver type, a class count other than 2, class labels other than
`1 0` / `1 -1`, and an `alpha` line whose length differs from the
declared `nr_sample`; but the feature count is read without being
validated against anything, and a model file with no `alpha` marker at
all does not raise — it returns a `None` coefficient vector
(`np.array(None)`). -/
theorem parse_model_file_validation_amended :
    (∀ (st : MState) (s : String) (rest : List ModelLine),
        ¬ (s = "L2R_LR_DUAL" ∨ s = "L2R_L2LOSS_SVC_DUAL") →
        parse_model_lines st (.solver_type s :: rest) = .error ())
    ∧ (∀ (st : MState) (n : ℕ) (rest : List ModelLine), n ≠ 2 →
        parse_model_lines st (.nr_class n :: rest) = .error ())
    ∧ (∀ (st : MState) (l1 l2 : Int) (rest : List ModelLine),
        ¬ (l1 = 1 ∧ (l2 = 0 ∨ l2 = -1)) →
        parse_model_lines st (.label l1 l2 :: rest) = .error ())
    ∧ (∀ (st : MState) (ns : ℕ) (vs : List ℚ) (rest : List ModelLine),
        st.nr_sample = some ns → vs.length ≠ ns →
        parse_model_lines st (.alpha :: .raw vs :: rest) = .error ())
    ∧ (∀ (lines : List ModelLine) (r : Option (List ℚ)),
        ModelLine.alpha ∉ lines →
        parse_model_file lines = .ok r → r = none) := by
  refine ⟨?_, ?_, ?_, ?_, ?_⟩
  · intro st s rest hs
    simp only [parse_model_lines]
    rw [if_neg hs]
  · intro st n rest hn
    simp only [parse_model_lines]
    rw [if_neg hn]
  · intro st l1 l2 rest hl
    simp only [parse_model_lines]
    rw [if_neg hl]
  · intro st ns vs rest hns hlen
    simp [parse_model_lines, hns, hlen]
  · intro lines r hna h
    unfold parse_model_file at h
    cases hres : parse_model_lines initMState lines with
    | error e => rw [hres] at h; simp [Except.map] at h
    | ok st2 =>
      rw [hres] at h
      simp only [Except.map, Except.ok.injEq] at h
      rw [← h]
      exact parse_model_lines_alpha_invariant lines initMState st2 hna hres

theorem parse_model_file_validation_amended_witness :
    parse_model_lines initMState [.solver_type "L1R_LR"] = .error ()
    ∧ parse_model_lines initMState [.nr_class 3] = .error ()
    ∧ parse_model_lines initMState [.label 2 0] = .error ()
    ∧ parse_model_lines { initMState with nr_sample := some 3 }
        [.alpha, .raw [1, 2]] = .error ()
    ∧ (none : Option (List ℚ)) = none :=
  ⟨parse_model_file_validation_amended.1 initMState "L1R_LR" []
      (by decide),
    parse_model_file_validation_amended.2.1 initMState 3 [] (by decide),
    parse_model_file_validation_amended.2.2.1 initMState 2 0 []
      (by decide),
    parse_model_file_validation_amended.2.2.2.1
      { initMState with nr_sample := some 3 } 3 [1, 2] [] rfl (by decide),
    parse_model_file_validation_amended.2.2.2.2
      [.solver_type "L2R_LR_DUAL", .nr_class 2] none (by decide) rfl⟩

/-- Claim C5 counterexample: a model file with valid header lines but no
`alpha` marker makes `parse_model_file` return normally with a `None`
coefficient vector instead of raising a fatal parse error. -/
theorem parse_model_file_missing_alpha_counterexample :
    parse_model_file
        [.solver_type "L2R_LR_DUAL", .nr_class 2, .label 1 (-1),
         .nr_feature 2, .bias 0, .nr_sample 3]
        = .ok none
    ∧ parse_model_file
        [.solver_type "L2R_LR_DUAL", .nr_class 2, .label 1 (-1),
         .nr_feature 2, .bias 0, .nr_sample 3]
        ≠ .error () := by
  constructor
  · rfl
  · intro h
    rw [show parse_model_file
        [.solver_type "L2R_LR_DUAL", .nr_class 2, .label 1 (-1),
         .nr_feature 2, .bias 0, .nr_sample 3]
        = .ok none from rfl] at h
    simp at h

/-- Sequence a list of optional values: `some` of all values when every
entry is present, `none` as soon as one is missing (an exception inside
the Python list comprehension aborts the whole call). -/
def seqOpt : List (Option α) → Option (List α)
  | [] => some []
  | none :: _ => none
  | some a :: rest => (seqOpt rest).map (fun l => a :: l)

theorem seqOpt_map_some : ∀ (l : List α), seqOpt (l.map some) = some l := by
  intro l
  induction l with
  | nil => rfl
  | cons a rest ih => simp [seqOpt, ih]

theorem seqOpt_isSome_iff :
    ∀ (l : List (Option α)), (seqOpt l).isSome ↔ ∀ o ∈ l, o.isSome := by
  intro l
  induction l with
  | nil => simp [seqOpt]
  | cons o rest ih =>
    cases o with
    | none => simp [seqOpt]
    | some a => simp [seqOpt, ih]

/-- `result[np.where(y == 0)] *= -1` (linear_model.py lines 106 and 302):
negate exactly the result rows whose target label is `0`. -/
def negateWhereZero (rows : List (List ℚ)) (y : List ℕ) : List (List ℚ) :=
  List.zipWith (fun row yi => if yi = 0 then row.map (fun v => -v) else row)
    rows y

/-- The dispatch logic shared verbatim by `SVM.explain` (linear_model.py
lines 82-108) and `KernelLogisticRegression.explain` (lines 278-304),
after the target labels have been fixed (`y = self.predict(X)` when not
given); each fitted binary estimator is represented by its `explain`
function on a single query row. With more than one estimator, row `i`
is `estimators_[y[i]].explain(X[[i]])`; otherwise row `i` is
`estimators_[0].explain(X[[i]])` and rows with `y == 0` are negated.
The failed `assert len(y) == len(X)` and a label that is not a valid
index into the estimator list (Python `IndexError`) are `none`. -/
def explainDispatch (ests : List (List ℚ → List ℚ)) (X : List (List ℚ))
    (y : List ℕ) : Option (List (List ℚ)) :=
  if y.length = X.length then
    if 1 < ests.length then
      seqOpt ((List.range X.length).map
        (fun i => (ests[y.getD i 0]?).map (fun e => e (X.getD i []))))
    else
      (seqOpt ((List.range X.length).map
        (fun i => (ests[0]?).map (fun e => e (X.getD i []))))).map
        (fun rows => negateWhereZero rows y)
  else
    none

theorem zipWith_map_range (g : α → β → γ) (d : β) :
    ∀ (n : ℕ) (f : ℕ → α) (y : List β), y.length = n →
      List.zipWith g ((List.range n).map f) y
        = (List.range n).map (fun i => g (f i) (y.getD i d)) := by
  intro n
  induction n with
  | zero =>
    intro f y hy
    have : y = [] := List.length_eq_zero.mp hy
    subst this
    simp
  | succ k ih =>
    intro f y hy
    cases y with
    | nil => simp at hy
    | cons b u =>
      simp only [List.range_succ_eq_map, List.map_cons, List.map_map,
        List.zipWith_cons_cons, List.getD_cons_zero]
      have hcomp : ((fun i => g (f i) ((b :: u).getD i d)) ∘ Nat.succ)
          = fun i => g ((f ∘ Nat.succ) i) (u.getD i d) := by
        funext i
        simp [Function.comp, List.getD_cons_succ]
      rw [ih (f ∘ Nat.succ) u (by simpa using hy), hcomp]

/-- Claim C6: with more than one estimator, row `i` of the dispatched
explanation is the `y[i]`-th binary estimator's `explain` on `X[i]`,
unnegated; with exactly one estimator, row `i` is the single
estimator's `explain` on `X[i]`, negated exactly when `y[i] == 0`. -/
theorem explain_dispatch_sign_convention (ests : List (List ℚ → List ℚ))
    (X : List (List ℚ)) (y : List ℕ) (hy : y.length = X.length) :
    (1 < ests.length →
      (∀ i, i < X.length → y.getD i 0 < ests.length) →
      explainDispatch ests X y
        = some ((List.range X.length).map
            (fun i => (ests.getD (y.getD i 0) id) (X.getD i []))))
    ∧ (ests.length = 1 →
      explainDispatch ests X y
        = some ((List.range X.length).map
            (fun i =>
              if y.getD i 0 = 0 then
                ((ests.getD 0 id) (X.getD i [])).map (fun v => -v)
              else (ests.getD 0 id) (X.getD i [])))) := by
  constructor
  · intro h2 hidx
    unfold explainDispatch
    rw [if_pos hy, if_pos h2]
    have hmap : (List.range X.length).map
        (fun i => (ests[y.getD i 0]?).map (fun e => e (X.getD i [])))
        = ((List.range X.length).map
            (fun i => (ests.getD (y.getD i 0) id) (X.getD i []))).map some := by
      rw [List.map_map]
      apply List.map_congr_left
      intro i hi
      have hlt : y.getD i 0 < ests.length := hidx i (by simpa using hi)
      show Option.map (fun e => e (X.getD i [])) (ests[y.getD i 0]?)
          = some (ests.getD (y.getD i 0) id (X.getD i []))
      rw [List.getElem?_eq_getElem hlt, List.getD_eq_getElem _ _ hlt]
      rfl
    rw [hmap, seqOpt_map_some]
  · intro h1
    unfold explainDispatch
    rw [if_pos hy, if_neg (by omega : ¬ 1 < ests.length)]
    have h0 : 0 < ests.length := by omega
    have hget : ests[0]? = some (ests.getD 0 id) := by
      rw [List.getElem?_eq_getElem h0, List.getD_eq_getElem _ _ h0]
    rw [hget]
    have hmap2 : (List.range X.length).map
        (fun i => (some (ests.getD 0 id)).map (fun e => e (X.getD i [])))
        = ((List.range X.length).map
            (fun i => (ests.getD 0 id) (X.getD i []))).map some := by
      rw [List.map_map]
      apply List.map_congr_left
      intro i _
      simp [Function.comp]
    rw [hmap2, seqOpt_map_some]
    simp only [Option.map_some']
    congr 1
    unfold negateWhereZero
    rw [zipWith_map_range _ 0 X.length _ y hy]

theorem explain_dispatch_sign_convention_witness :
    explainDispatch [fun r => [r.sum], fun r => [2 * r.sum]]
        [[1], [2]] [1, 0] = some [[2], [2]]
    ∧ explainDispatch [fun r => [r.sum]] [[1], [2]] [1, 0]
        = some [[1], [-2]] := by
  constructor
  · rw [(explain_dispatch_sign_convention
        [fun r => [r.sum], fun r => [2 * r.sum]] [[1], [2]] [1, 0] rfl).1
        (by decide) (by decide)]
    norm_num [List.range_succ]
  · rw [(explain_dispatch_sign_convention
        [fun r => [r.sum]] [[1], [2]] [1, 0] rfl).2 rfl]
    norm_num [List.range_succ]

theorem isSome_getElemOpt (l : List α) (n : ℕ) :
    (l[n]?).isSome ↔ n < l.length := by
  constructor
  · intro h
    rcases Option.isSome_iff_exists.mp h with ⟨a, ha⟩
    rcases List.getElem?_eq_some.mp ha with ⟨hlt, _⟩
    exact hlt
  · intro h
    rw [List.getElem?_eq_getElem h]
    rfl

/-- Claim C10: in the genuinely multiclass path, the dispatcher indexes
the ordered estimator list with the target label value itself, so the
dispatched explanation is defined exactly when every target label is a
valid position `0 .. n_classes-1` of the estimator list — even though
labels are in principle arbitrary. -/
theorem explain_label_indexing (ests : List (List ℚ → List ℚ))
    (X : List (List ℚ)) (y : List ℕ) (hy : y.length = X.length)
    (h2 : 1 < ests.length) :
    (explainDispatch ests X y).isSome ↔
      ∀ i, i < X.length → y.getD i 0 < ests.length := by
  unfold explainDispatch
  rw [if_pos hy, if_pos h2, seqOpt_isSome_iff]
  constructor
  · intro h i hi
    have hmem := h ((ests[y.getD i 0]?).map (fun e => e (X.getD i [])))
      (List.mem_map_of_mem _ (List.mem_range.mpr hi))
    rw [Option.isSome_map'] at hmem
    exact (isSome_getElemOpt ests (y.getD i 0)).mp hmem
  · intro h o ho
    rcases List.mem_map.mp ho with ⟨i, hir, rfl⟩
    rw [Option.isSome_map']
    exact (isSome_getElemOpt ests (y.getD i 0)).mpr
      (h i (List.mem_range.mp hir))

theorem explain_label_indexing_witness :
    ((explainDispatch [fun r => r, fun r => r] [[1]] [1]).isSome ↔
      ∀ i, i < 1 → List.getD [1] i 0 < 2) :=
  explain_label_indexing [fun r => r, fun r => r] [[1]] [1] rfl (by decide)

/-- `np.isclose` for scalars with the default tolerances
`rtol = 1e-5`, `atol = 1e-8`: `|a - b| <= atol + rtol * |b|`. -/
def isclose (a b : ℚ) : Bool :=
  decide (|a - b| ≤ 1 / 100000000 + 1 / 100000 * |b|)

/-- `np.allclose` on two equal-rank 1-D arrays: shapes must be
broadcast-compatible (equal lengths here) and every pair close. -/
def allclose (xs ys : List ℚ) : Bool :=
  xs.length == ys.length && (List.zipWith isclose xs ys).all (fun b => b)

/-- The result of the underlying `SVC` solver trained inside
`BinarySVM.fit` (linear_model.py lines 182-187): the stored dual data
`dual_coef_[0]`, `support_`, `intercept_[0]`, plus the solver's own
per-row `predict` and `decision_function`, modelled as opaque
per-row functions of the trained solver. -/
structure SVCOracle where
  dual_coef_ : List ℚ
  support_ : List ℕ
  intercept_ : ℚ
  predictF : List ℚ → ℚ
  decisionF : List ℚ → ℚ

namespace BinarySVM

/-- The estimator state assembled by `BinarySVM.fit` from the solver
result before the self-check (lines 178-187). -/
def fitted (kf : List ℚ → List ℚ → ℚ) (ps : ℕ) (X : List (List ℚ))
    (svc : SVCOracle) : BinarySVM :=
  { kernel_func := kf, X_train_ := X, coef_ := svc.dual_coef_,
    coef_indices_ := svc.support_, intercept_ := svc.intercept_,
    pred_size := ps }

/-- `BinarySVM.fit` (lines 175-193): store the training data and the
solver's dual representation, then assert `np.allclose` agreement of
the solver's own predictions and decision values with the dual-form
reconstruction on the first `n_check` training rows; a failed assert
(ConsistencyError) is `.error ()`. -/
def fit (kf : List ℚ → List ℚ → ℚ) (ps : ℕ) (X : List (List ℚ))
    (svc : SVCOracle) (n_check : ℕ) : Except Unit BinarySVM :=
  if allclose ((X.take n_check).map svc.predictF)
        ((fitted kf ps X svc).predict (X.take n_check))
      && allclose ((X.take n_check).map svc.decisionF)
        ((fitted kf ps X svc).decision_function (X.take n_check)) then
    .ok (fitted kf ps X svc)
  else
    .error ()

end BinarySVM

/-- Claim C7: whenever `BinarySVM.fit` returns an estimator rather than
raising, the dual-form reconstruction agrees (within `np.allclose`
tolerance) with the underlying solver's own predicted labels and
decision values on the first `n_check` training rows, and the returned
estimator is exactly the checked one — the disagreeing state is
unreachable for a returned estimator. -/
theorem svm_fit_self_check (kf : List ℚ → List ℚ → ℚ) (ps : ℕ)
    (X : List (List ℚ)) (svc : SVCOracle) (nc : ℕ) (m : BinarySVM)
    (h : BinarySVM.fit kf ps X svc nc = .ok m) :
    allclose ((X.take nc).map svc.predictF)
        (m.predict (X.take nc)) = true
    ∧ allclose ((X.take nc).map svc.decisionF)
        (m.decision_function (X.take nc)) = true
    ∧ m.coef_ = svc.dual_coef_
    ∧ m.coef_indices_ = svc.support_
    ∧ m.intercept_ = svc.intercept_
    ∧ m.X_train_ = X := by
  unfold BinarySVM.fit at h
  split at h
  · rename_i hc
    rw [Bool.and_eq_true] at hc
    injection h with h2
    subst h2
    exact ⟨hc.1, hc.2, rfl, rfl, rfl, rfl⟩
  · exact absurd h (by simp)

/-- Concrete solver-result oracle consistent with the dual data, used by
the fit witness. -/
def svcExample : SVCOracle :=
  { dual_coef_ := [1], support_ := [0], intercept_ := 0,
    predictF := fun _ => 1, decisionF := fun r => r.getD 0 0 }

theorem svm_fit_self_check_witness :
    allclose (([[(1 : ℚ)], [2]].take 2).map svcExample.predictF)
        ((BinarySVM.fitted dot 2 [[1], [2]] svcExample).predict
          ([[1], [2]].take 2)) = true
    ∧ allclose (([[(1 : ℚ)], [2]].take 2).map svcExample.decisionF)
        ((BinarySVM.fitted dot 2 [[1], [2]] svcExample).decision_function
          ([[1], [2]].take 2)) = true
    ∧ (BinarySVM.fitted dot 2 [[1], [2]] svcExample).coef_
        = svcExample.dual_coef_
    ∧ (BinarySVM.fitted dot 2 [[1], [2]] svcExample).coef_indices_
        = svcExample.support_
    ∧ (BinarySVM.fitted dot 2 [[1], [2]] svcExample).intercept_
        = svcExample.intercept_
    ∧ (BinarySVM.fitted dot 2 [[1], [2]] svcExample).X_train_
        = [[1], [2]] :=
  svm_fit_self_check dot 2 [[1], [2]] svcExample 2
    (BinarySVM.fitted dot 2 [[1], [2]] svcExample) (by
      have hc : (allclose (([[(1 : ℚ)], [2]].take 2).map
            svcExample.predictF)
            ((BinarySVM.fitted dot 2 [[1], [2]] svcExample).predict
              ([[1], [2]].take 2))
          && allclose (([[(1 : ℚ)], [2]].take 2).map
            svcExample.decisionF)
            ((BinarySVM.fitted dot 2 [[1], [2]] svcExample).decision_function
              ([[1], [2]].take 2))) = true := by
        norm_num [allclose, isclose, BinarySVM.fitted, svcExample,
          BinarySVM.predict, BinarySVM.decision_function,
          BinarySVM.decisionRow, BinarySVM.impact, chunk, dot]
      unfold BinarySVM.fit
      rw [hc]
      rfl)
